import Mathlib

/-!
Shallow embedding of the RMgx-RAG_PDF service (a FastAPI retrieval-augmented
question answering app) for verifying its specification.

The embedding covers:
* the `/chat` route of `app/routes/chat.py` (query keyword filter, relevance
  sort, citation cap, session memory, generation call),
* the `/upload`, `/delete` and `/reset` routes of `app/routes/upload.py`,
* the citation-name fallback chain of `RAGPipeline.ask` in
  `app/services/rag_pipeline.py`.

Modelling conventions:
* Python strings are modelled as `List Char` (named `Str`); the Python string
  operations used by the code (`lower`, `split`, `in`, `endswith`, `join`,
  `os.path.basename`) are re-implemented structurally below so that they agree
  with Python semantics and evaluate inside the kernel.
* Pinecone similarity scores (floats in the code) are modelled as rationals;
  the only operation the code performs on them is the comparison with the
  literal threshold `0.7`, which is order-theoretic and therefore faithfully
  represented on `ℚ`.
* Dictionary metadata is modelled as a record of the optional fields the code
  actually reads; a `none` field models an absent key.
* External collaborators (the embedding call, the Pinecone query, the LLM) are
  parameters of the embedded functions: the chat route takes the list of
  search matches returned by the vector store and the generation function.
-/

namespace RagPdf

/-- Python strings, modelled as their character lists. -/
abbrev Str := List Char

/-- Python `str.lower()` (character-wise lowering). -/
def lowerL (s : Str) : Str := s.map Char.toLower

/-- Auxiliary: is `need` a leading segment of the second list? -/
def listPre : Str → Str → Bool
  | [], _ => true
  | _ :: _, [] => false
  | a :: as, b :: bs => a == b && listPre as bs

/-- Python `need in hay` for strings: `need` occurs contiguously in `hay`. -/
def listInf (need : Str) : Str → Bool
  | [] => listPre need []
  | c :: t => listPre need (c :: t) || listInf need t

/-- Python `s.endswith(suffix)`. -/
def endsWithL (s suf : Str) : Bool := listPre suf.reverse s.reverse

/-- Accumulator for whitespace splitting. -/
def splitWsAux (cur : Str) (acc : List Str) : Str → List Str
  | [] => (cur.reverse :: acc).reverse
  | c :: cs =>
    if c.isWhitespace then splitWsAux [] (cur.reverse :: acc) cs
    else splitWsAux (c :: cur) acc cs

/-- Python `s.split()` with no argument: split on whitespace runs, dropping
empty pieces. -/
def pySplitWs (s : Str) : List Str :=
  (splitWsAux [] [] s).filter (fun w => !w.isEmpty)

/-- Accumulator for single-character separator splitting. -/
def splitChAux (sep : Char) (cur : Str) (acc : List Str) : Str → List Str
  | [] => (cur.reverse :: acc).reverse
  | c :: cs =>
    if c == sep then splitChAux sep [] (cur.reverse :: acc) cs
    else splitChAux sep (c :: cur) acc cs

/-- Python `s.split(sep)` for a one-character separator: keeps empty pieces. -/
def pySplitCh (sep : Char) (s : Str) : List Str := splitChAux sep [] [] s

/-- Python `sep.join(parts)`. -/
def joinWith (sep : Str) : List Str → Str
  | [] => []
  | [w] => w
  | w :: ws => w ++ sep ++ joinWith sep ws

/-- Number of query keywords occurring as substrings of the text, exactly as
computed twice in the chat route (`app/routes/chat.py` lines 113-116 and 126):
lowercase the query, split it on whitespace, and count the keywords contained
in the lowercased text. -/
def kwCount (query text : Str) : Nat :=
  ((pySplitWs (lowerL query)).filter (fun kw => listInf kw (lowerL text))).length

/-- The metadata fields the chat route reads from a Pinecone match
(`match.metadata` in `app/routes/chat.py`); a `none` field models an absent
key. `page_number` is `some n` exactly when the stored value validates as a
Python/pydantic integer; `none` models a missing key, a stored null, or a
non-integer value (all of which make the pydantic `int` field fail). -/
structure MatchMeta where
  text : Option Str
  file_name : Option Str
  page_number : Option Int
deriving DecidableEq

/-- One match returned by the Pinecone `query` call: a similarity score and
its metadata. -/
structure SearchMatch where
  score : ℚ
  metadata : MatchMeta
deriving DecidableEq

/-- The `Source` pydantic output model of the chat route: all three fields are
required (in particular `page_number : int`, not optional). -/
structure Source where
  pdf_name : Str
  page_number : Int
  relevant_text : Str
deriving DecidableEq

/-- A conversation turn stored in session memory: the user input and the
produced output, as saved by `memory.save_context`. -/
abbrev Turn := Str × Str

/-- Everything observable about one execution of the chat route body:
the response fields, whether the external generation call ran, and the
session-memory contents after the request. -/
structure ChatOutput where
  answer : Str
  sources : List Source
  genCalled : Bool
  memOut : List Turn
deriving DecidableEq

/-- The fixed fallback answer of the chat route
(`app/routes/chat.py` lines 101-102). -/
def notFoundMsg : Str :=
  "I could not find any relevant information in the uploaded documents.".data

/-- The similarity threshold `0.7` of the inclusion gate
(`app/routes/chat.py` line 117). -/
def simThreshold : ℚ := mkRat 7 10

/-- The inclusion gate of the chat route (`app/routes/chat.py` lines 109-117):
a match enters the retrieved context and the source list when its metadata has
a `"text"` key and (its keyword match count is positive or its similarity
score exceeds `0.7`). A match without a `"text"` key is skipped by the
`if "text" in match.metadata` guard regardless of its score. -/
def keepMatch (query : Str) (m : SearchMatch) : Bool :=
  match m.metadata.text with
  | none => false
  | some t => (kwCount query t != 0) || decide (simThreshold < m.score)

/-- Construction of the `Source` pydantic model for one kept match
(`app/routes/chat.py` lines 119-123). `pdf_name` defaults to `"Unknown"`;
`relevant_text` is the match text; `page_number` is
`match.metadata.get("page_number", None)`, and pydantic validation of the
required `int` field fails (raising, which the route surfaces as a 500)
when that value is not an integer. -/
def mkSource (m : SearchMatch) : Except String Source :=
  match m.metadata.text, m.metadata.page_number with
  | some t, some n => Except.ok ⟨m.metadata.file_name.getD "Unknown".data, n, t⟩
  | _, _ => Except.error "validation error for Source"

/-- The source-construction loop over the kept matches: the first pydantic
validation failure aborts the request (the exception propagates to the
route-level handler). -/
def buildSources : List SearchMatch → Except String (List Source)
  | [] => Except.ok []
  | m :: ms =>
    match mkSource m, buildSources ms with
    | Except.error e, _ => Except.error e
    | Except.ok _, Except.error e => Except.error e
    | Except.ok s, Except.ok rest => Except.ok (s :: rest)

/-- The sort key of `app/routes/chat.py` line 126: the keyword match count of
a source's text against the query. -/
def srcKw (query : Str) (s : Source) : Nat := kwCount query s.relevant_text

/-- Insertion step of the stable descending sort by `srcKw`. -/
def insertDesc (query : Str) (s : Source) : List Source → List Source
  | [] => [s]
  | t :: ts =>
    if srcKw query t ≤ srcKw query s then s :: t :: ts
    else t :: insertDesc query s ts

/-- The sort of `app/routes/chat.py` line 126:
`sorted(sources, key=keyword-match-count, reverse=True)`. Python's `sorted`
is a stable sort, and with `reverse=True` elements with equal keys still keep
their original order; it is modelled as a stable insertion sort into
descending key order. -/
def sortSources (query : Str) : List Source → List Source
  | [] => []
  | s :: ss => insertDesc query s (sortSources query ss)

/-- `memory.buffer_as_str` of `ConversationBufferWindowMemory(k=5)`: the last
five stored turns, rendered as a `Human:`/`AI:` transcript. -/
def renderMem (mem : List Turn) : Str :=
  joinWith ['\n']
    ((mem.drop (mem.length - 5)).map
      (fun t => "Human: ".data ++ t.1 ++ ['\n'] ++ "AI: ".data ++ t.2))

/-- The descending relevance order used by the chat route's sort: an earlier
element must have a keyword match count at least that of a later one. -/
def descBy (query : Str) (a b : Source) : Prop := srcKw query b ≤ srcKw query a

/-- The tail of the `/chat` route body once all kept matches produced their
`Source` without a validation error (`app/routes/chat.py` lines 125-161):
sort the sources by keyword match count descending, keep only the first one,
join the kept matches' texts with blank lines as the context, and invoke
generation with the context, the rendered session history and the question.
On the primary runnable-chain path (`primaryOk = true`) nothing is written to
the session memory; the `except` fallback re-runs the prompt through
`LLMChain(llm, prompt, memory=memory)`, which records the turn. -/
def chatAnswer (gen : Str → Str → Str → Str) (primaryOk : Bool) (mem : List Turn)
    (query : Str) (hits : List SearchMatch) (srcs : List Source) : ChatOutput :=
  if primaryOk then
    ⟨gen (joinWith "\n\n".data
        ((hits.filter (keepMatch query)).filterMap (fun m => m.metadata.text)))
      (renderMem mem) query,
     (sortSources query srcs).take 1, true, mem⟩
  else
    ⟨gen (joinWith "\n\n".data
        ((hits.filter (keepMatch query)).filterMap (fun m => m.metadata.text)))
      (renderMem mem) query,
     (sortSources query srcs).take 1, true,
     mem ++ [(query, gen (joinWith "\n\n".data
        ((hits.filter (keepMatch query)).filterMap (fun m => m.metadata.text)))
      (renderMem mem) query)]⟩

/-- The body of the `/chat` route (`app/routes/chat.py` lines 77-165), with
the external collaborators as parameters: `hits` is the match list returned
by the Pinecone query for the embedded request, and `gen context history
question` is the LLM call behind the prompt template. An `Except.error`
result models the route-level `except` handler turning the exception into an
HTTP 500 response.

Behaviour mirrored from the source, in order: when the search returned no
matches, save the turn to memory and answer with the fixed message without
calling the LLM; otherwise filter matches through the inclusion gate,
construct a `Source` per kept match (the first pydantic failure aborts the
request), then continue with `chatAnswer`. -/
def chat (gen : Str → Str → Str → Str) (primaryOk : Bool) (mem : List Turn)
    (query : Str) (hits : List SearchMatch) : Except String ChatOutput :=
  if hits.isEmpty then
    Except.ok ⟨notFoundMsg, [], false, mem ++ [(query, notFoundMsg)]⟩
  else
    Except.map (chatAnswer gen primaryOk mem query hits)
      (buildSources (hits.filter (keepMatch query)))

/-! Upload, delete and reset routes (`app/routes/upload.py`). -/

/-- A raised Python exception inside a route body: either a FastAPI
`HTTPException(status, detail)` or some other exception with a message. -/
inductive PyExc where
  | httpExc (status : Nat) (detail : Str)
  | other (msg : Str)
deriving DecidableEq

/-- Python `str(e)` for the two exception shapes: Starlette renders an
`HTTPException` as `"{status}: {detail}"`. -/
def excStr : PyExc → Str
  | PyExc.httpExc status detail => (toString status).data ++ ": ".data ++ detail
  | PyExc.other msg => msg

/-- The per-file validation at the top of the upload loop
(`app/routes/upload.py` lines 34-37): the first file whose name does not end
in `".pdf"` raises `HTTPException(400, f"{name} is not a PDF file")`. The
rest of the loop body (PDF parsing, chunking, S3 upload) and the batch
embedding/upsert are external-collaborator work abstracted as succeeding;
only the filename validation, which runs first for each file, is modelled. -/
def uploadCheck : List Str → Except PyExc Unit
  | [] => Except.ok ()
  | f :: fs =>
    if endsWithL f ".pdf".data then uploadCheck fs
    else Except.error (PyExc.httpExc 400 (f ++ " is not a PDF file".data))

/-- The `/upload` route (`app/routes/upload.py` lines 20-120) reduced to its
HTTP outcome `(status, detail-or-message)`. The `try` block at line 31 wraps
the whole body, and its `except Exception` handler at line 118 re-raises
every exception — including the `HTTPException(400, ...)` raised by the
filename validation at line 37, since FastAPI's `HTTPException` subclasses
`Exception` — as `HTTPException(500, f"Internal server error: {str(e)}")`. -/
def upload_pdfs (files : List Str) : Nat × Str :=
  match uploadCheck files with
  | Except.error e => (500, "Internal server error: ".data ++ excStr e)
  | Except.ok _ => (200, "Files uploaded and processed successfully".data)

/-- The persistent state the admin routes act on: the S3 object keys and the
`s3_key` metadata values of the vectors stored in Pinecone. -/
structure SysState where
  blobs : List Str
  vectors : List Str
deriving DecidableEq

/-- The `DeleteResponse` model of `app/models/chat.py`. -/
structure DeleteResponse where
  message : Str
  deleted_file : Str
  s3_key : Str
  success : Bool
deriving DecidableEq

/-- The method names defined by `class PineconeVectorStoreHandler` in
`app/services/pinecone_store.py` (transcribed from the class body). The
delete route calls `delete_vectors_by_metadata`, which is not among them, so
that call raises `AttributeError` at runtime. -/
def pineconeHandlerMethods : List Str :=
  ["__init__".data, "_ensure_index_exists".data, "save_documents".data,
   "load_vectorstore".data, "get_retriever".data, "test_similarity_search".data,
   "delete_all".data, "get_stats".data, "delete_all_vectors".data,
   "save_vectors".data]

/-- The `/delete` route (`app/routes/upload.py` lines 145-184): delete the
blob under the given key from S3, then try to delete the vectors whose
`s3_key` metadata references it. The vector step resolves the attribute
`delete_vectors_by_metadata` on the handler; since the class does not define
it, the lookup raises, the inner `except` at line 168 only logs the error, and
the route still answers success. The intended metadata-filtered vector
deletion in the `AttributeError`-free branch is never reached. -/
def delete_file (st : SysState) (key : Str) : SysState × Except (Nat × Str) DeleteResponse :=
  let st1 : SysState := { st with blobs := st.blobs.filter (fun b => !(b == key)) }
  let vecAttempt : Except Str SysState :=
    if pineconeHandlerMethods.contains "delete_vectors_by_metadata".data then
      Except.ok { st1 with vectors := st1.vectors.filter (fun v => !(v == key)) }
    else
      Except.error "AttributeError: PineconeVectorStoreHandler object has no attribute delete_vectors_by_metadata".data
  let st2 := match vecAttempt with
    | Except.ok s => s
    | Except.error _ => st1
  let filename := if listInf ['/'] key then (pySplitCh '/' key).getLastD key else key
  (st2, Except.ok ⟨"File deleted successfully from S3".data, filename, key, true⟩)

/-- The `ResetResponse` model of `app/models/chat.py`, with the error list of
the route's structured `details` payload. -/
structure ResetResponse where
  message : Str
  s3_files_deleted : Nat
  pinecone_vectors_deleted : Nat
  success : Bool
  errors : List Str
deriving DecidableEq

/-- Detail text of the client error returned by `/reset` without
confirmation (`app/routes/upload.py` lines 198-203; quotes elided). -/
def resetConfirmDetail : Str :=
  "Reset operation requires explicit confirmation. Set confirm: true in request body.".data

/-- The `/reset` route (`app/routes/upload.py` lines 189-258). Without
`confirm` it raises `HTTPException(400, ...)` before any deletion work — the
raise sits before the `try` block, so it reaches the caller as a 400 and the
state is untouched. With confirmation, the S3 wipe and the Pinecone wipe each
run in their own `try`, a failing step (modelled by `s3Fails` / `pineFails`)
leaves that subsystem's data in place and appends an error entry, and the
route reports per-subsystem counts with `success` true iff no step failed. -/
def reset_index (st : SysState) (confirm : Bool) (s3Fails pineFails : Bool) :
    SysState × Except (Nat × Str) ResetResponse :=
  if confirm then
    let s3Res : List Str × Nat × List Str :=
      if s3Fails then (st.blobs, 0, ["S3 deletion failed".data])
      else ([], st.blobs.length, [])
    let pineRes : List Str × Nat × List Str :=
      if pineFails then (st.vectors, 0, ["Pinecone deletion failed".data])
      else ([], st.vectors.length, [])
    let errors := s3Res.2.2 ++ pineRes.2.2
    let success := errors.isEmpty
    let message := if success then "Index reset completed successfully".data
      else "Index reset completed with some errors".data
    (⟨s3Res.1, pineRes.1⟩,
     Except.ok ⟨message, s3Res.2.1, pineRes.2.1, success, errors⟩)
  else
    (st, Except.error (400, resetConfirmDetail))

/-! Citation name resolution in `RAGPipeline.ask`
(`app/services/rag_pipeline.py` lines 112-136). -/

/-- The metadata fields the citation builder of `RAGPipeline.ask` reads from
a retrieved LangChain document; a `none` field models an absent key. -/
structure DocMeta where
  pdf_name : Option Str
  original_filename : Option Str
  source : Option Str
  file_path : Option Str
deriving DecidableEq

/-- The sentinel value used by the fallback chain. -/
def unknownS : Str := "Unknown".data

/-- The prefix-stripping step of `RAGPipeline.ask` (lines 123-124 and
131-132): when the name contains an underscore and the part before the first
underscore has length exactly 32, drop that part and the underscore. Only
the length is tested — the code never checks the characters are hex digits. -/
def stripUuid32 (name : Str) : Str :=
  if listInf ['_'] name && ((pySplitCh '_' name).headD []).length == 32 then
    joinWith ['_'] ((pySplitCh '_' name).drop 1)
  else name

/-- The `pdf_name` fallback chain of `RAGPipeline.ask` lines 112-136,
transcribed step by step: `pdf_name`, then `original_filename`, then `source`
(taking the last `/`-segment and stripping a 32-character prefix only when the
value contains a slash), then `os.path.basename(file_path)` with the same
stripping, and finally the literal `"Unknown Document"`; at every step an
empty value or the sentinel `"Unknown"` falls through to the next. -/
def extract_pdf_name (m : DocMeta) : Str :=
  let p1 := m.pdf_name.getD unknownS
  let p2 := if p1.isEmpty || p1 == unknownS then m.original_filename.getD unknownS else p1
  let p3 :=
    if p2.isEmpty || p2 == unknownS then
      let s := m.source.getD unknownS
      if !s.isEmpty && listInf ['/'] s then stripUuid32 ((pySplitCh '/' s).getLastD [])
      else s
    else p2
  let p4 :=
    if p3.isEmpty || p3 == unknownS then
      let fp := m.file_path.getD []
      if !fp.isEmpty then stripUuid32 ((pySplitCh '/' fp).getLastD []) else p3
    else p3
  if p4.isEmpty || p4 == unknownS then "Unknown Document".data else p4

/-- A hex-character test, for stating the claim's version of the prefix
detection ("a fixed-length hex token"). -/
def isHexS (s : Str) : Bool :=
  s.all (fun c => c.isDigit || ('a' ≤ c && c ≤ 'f') || ('A' ≤ c && c ≤ 'F'))

/-- The prefix-stripping step as the claim words it: the 32-character token
before the underscore must be a hex token for the prefix to be stripped. -/
def stripUuid32Hex (name : Str) : Str :=
  if listInf ['_'] name && ((pySplitCh '_' name).headD []).length == 32
      && isHexS ((pySplitCh '_' name).headD []) then
    joinWith ['_'] ((pySplitCh '_' name).drop 1)
  else name

/-- The fallback chain exactly as the claim states it: identical to
`extract_pdf_name` except that the prefix is stripped only when it is a
32-character hex token. Used to exhibit where the claim and the code part. -/
def claim_pdf_name (m : DocMeta) : Str :=
  let p1 := m.pdf_name.getD unknownS
  let p2 := if p1.isEmpty || p1 == unknownS then m.original_filename.getD unknownS else p1
  let p3 :=
    if p2.isEmpty || p2 == unknownS then
      let s := m.source.getD unknownS
      if !s.isEmpty && listInf ['/'] s then stripUuid32Hex ((pySplitCh '/' s).getLastD [])
      else s
    else p2
  let p4 :=
    if p3.isEmpty || p3 == unknownS then
      let fp := m.file_path.getD []
      if !fp.isEmpty then stripUuid32Hex ((pySplitCh '/' fp).getLastD []) else p3
    else p3
  if p4.isEmpty || p4 == unknownS then "Unknown Document".data else p4

/-- A value is usable for the fallback chain when it is non-empty and not the
sentinel `"Unknown"`. Spec-side reformulation used by the amended claim. -/
def usableVal (s : Str) : Option Str :=
  if s.isEmpty || s == unknownS then none else some s

/-- The name derived from the `source` metadata field, as the amended claim
words it: when `source` contains a slash, its last segment with a 32-character
leading token (hex or not) stripped; otherwise the raw value. -/
def sourceName (m : DocMeta) : Str :=
  let s := m.source.getD unknownS
  if !s.isEmpty && listInf ['/'] s then stripUuid32 ((pySplitCh '/' s).getLastD [])
  else s

/-- The name derived from the `file_path` metadata field, as the amended claim
words it: its basename (last slash segment) with the same 32-character token
stripping; when `file_path` is empty the chain keeps the previous candidate.
-/
def filePathName (m : DocMeta) (fallback : Str) : Str :=
  let fp := m.file_path.getD []
  if !fp.isEmpty then stripUuid32 ((pySplitCh '/' fp).getLastD []) else fallback

/-- The amended fallback chain, written in the spec's first-usable-entry
style: the first usable value among `pdf_name`, `original_filename`, the
`source`-derived name and the `file_path`-derived name, else the literal
`"Unknown Document"`. -/
def pdfNameSpec (m : DocMeta) : Str :=
  ((usableVal (m.pdf_name.getD unknownS)).orElse (fun _ =>
    (usableVal (m.original_filename.getD unknownS)).orElse (fun _ =>
      (usableVal (sourceName m)).orElse (fun _ =>
        usableVal (filePathName m (sourceName m)))))).getD "Unknown Document".data

/-! Helper lemmas. -/

theorem chatAnswer_sources (gen : Str → Str → Str → Str) (pOk : Bool) (mem : List Turn)
    (query : Str) (hits : List SearchMatch) (srcs : List Source) :
    (chatAnswer gen pOk mem query hits srcs).sources = (sortSources query srcs).take 1 := by
  cases pOk <;> rfl

theorem chatAnswer_genCalled (gen : Str → Str → Str → Str) (pOk : Bool) (mem : List Turn)
    (query : Str) (hits : List SearchMatch) (srcs : List Source) :
    (chatAnswer gen pOk mem query hits srcs).genCalled = true := by
  cases pOk <;> rfl

theorem chatAnswer_answer (gen : Str → Str → Str → Str) (pOk : Bool) (mem : List Turn)
    (query : Str) (hits : List SearchMatch) (srcs : List Source) :
    (chatAnswer gen pOk mem query hits srcs).answer =
      gen (joinWith "\n\n".data
        ((hits.filter (keepMatch query)).filterMap (fun m => m.metadata.text)))
        (renderMem mem) query := by
  cases pOk <;> rfl

/-! Claim theorems. -/

/-- C6: a reset request without the confirm flag returns a client error
(HTTP 400) and leaves both the blob store and the vector index untouched,
whatever the state and whatever the two deletion subsystems would have done.
-/
theorem C6_reset_requires_confirm (st : SysState) (s3Fails pineFails : Bool) :
    reset_index st false s3Fails pineFails = (st, Except.error (400, resetConfirmDetail)) := rfl

/-- C5: the upload route is intended to reject a batch with a non-PDF file as
a 400 client error (line 37 of `app/routes/upload.py`), but the blanket
`except Exception` of the same `try` catches the `HTTPException(400)` and
re-raises it as an HTTP 500 server error; the caller sees a 500. Evaluation
at the failing batch `["doc.pdf", "notes.txt"]`. -/
theorem C5_upload_wraps_400_into_500 :
    upload_pdfs ["doc.pdf".data, "notes.txt".data] =
      (500, "Internal server error: 400: notes.txt is not a PDF file".data) := rfl

/-- C3: the delete route reports success, yet the vectors whose metadata
references the deleted key survive: `delete_vectors_by_metadata` does not
exist on `PineconeVectorStoreHandler`, the `AttributeError` is caught and
only logged. Evaluation at a state holding one blob and one vector for the
key being deleted: the blob goes away, the vector stays, the response says
success. -/
theorem C3_vectors_survive_delete :
    delete_file ⟨["storage_01/abc.pdf".data], ["storage_01/abc.pdf".data]⟩
        "storage_01/abc.pdf".data =
      (⟨[], ["storage_01/abc.pdf".data]⟩,
       Except.ok ⟨"File deleted successfully from S3".data, "abc.pdf".data,
         "storage_01/abc.pdf".data, true⟩) := rfl

/-- C4: a successful chat answer on the primary chain path does not persist
the turn into session memory. Evaluation: a first query answered successfully
from a kept match leaves the session memory exactly as it was (empty), so a
second query in the same session gets no prior turn in its prompt. -/
theorem C4_turn_not_persisted :
    chat (fun _ _ _ => "Nice to meet you Alex".data) true []
        "My name is Alex".data
        [⟨mkRat 1 2, ⟨some "My name is Alex and I study logic".data,
          some "intro.pdf".data, some 1⟩⟩] =
      Except.ok ⟨"Nice to meet you Alex".data,
        [⟨"intro.pdf".data, 1, "My name is Alex and I study logic".data⟩],
        true, []⟩ := rfl

/-- C1 counterexample: a match whose metadata has no `text` key is excluded
by the gate even though its similarity score `0.9` exceeds `0.7` and the
claim says such a candidate is always included: the gate returns `false`, and
the chat response built from this single high-score match carries no source.
-/
theorem C1_counterexample :
    simThreshold < mkRat 9 10 ∧
    keepMatch "alpha".data ⟨mkRat 9 10, ⟨none, none, none⟩⟩ = false ∧
    chat (fun _ _ _ => "GEN".data) true [] "alpha".data
        [⟨mkRat 9 10, ⟨none, none, none⟩⟩] =
      Except.ok ⟨"GEN".data, [], true, []⟩ :=
  ⟨by decide, rfl, rfl⟩

/-- C2 counterexample: one match comes back from the search but the gate
filters it out (no keyword overlap, score `0.5 ≤ 0.7`), so ranking yields
zero citations; the claim says the route then answers the fixed message
without generating, but the code still invokes generation (`genCalled =
true`) and returns the generated answer, which differs from the fixed one. -/
theorem C2_counterexample :
    chat (fun _ _ _ => "GEN".data) true [] "capital".data
        [⟨mkRat 1 2, ⟨some "zzz qqq".data, some "a.pdf".data, some 1⟩⟩] =
      Except.ok ⟨"GEN".data, [], true, []⟩ ∧
    "GEN".data ≠ notFoundMsg :=
  ⟨rfl, by decide⟩

/-- C9 counterexample: the code strips any 32-character leading token before
an underscore from the basename of `source`, without checking it is made of
hex digits; the claim's hex-detecting chain keeps the non-hex prefix
`ZZZ...Z_` while the code removes it. -/
theorem C9_counterexample :
    extract_pdf_name
        ⟨none, none,
         some ("uploads/".data ++ List.replicate 32 'Z' ++ "_doc.pdf".data), none⟩ =
      "doc.pdf".data ∧
    claim_pdf_name
        ⟨none, none,
         some ("uploads/".data ++ List.replicate 32 'Z' ++ "_doc.pdf".data), none⟩ =
      List.replicate 32 'Z' ++ "_doc.pdf".data ∧
    isHexS (List.replicate 32 'Z') = false :=
  ⟨rfl, rfl, rfl⟩

/-- C1 (amended): a retrieved match is kept by the relevance filter — and so
contributes its text to the retrieved context and a constructed citation —
exactly when its metadata carries a `text` field and its keyword match count
is positive or its similarity score exceeds `0.7`; a match without a `text`
field is always excluded, whatever its score. -/
theorem C1_gate_amended (q : Str) (m : SearchMatch) :
    keepMatch q m = true ↔
      ∃ t, m.metadata.text = some t ∧ (0 < kwCount q t ∨ simThreshold < m.score) := by
  rcases h : m.metadata.text with _ | t
  · simp [keepMatch, h]
  · simp [keepMatch, h, Bool.or_eq_true, decide_eq_true_iff, bne_iff_ne,
      Nat.pos_iff_ne_zero]

/-- C2 (amended): when ranking yields zero citations, the response carries an
empty source list, but only the no-match case short-circuits to the fixed
"no relevant information" answer without generation; when matches came back
and were all filtered out, the route still invokes the external generation
call, on an empty context. -/
theorem C2_no_citations (gen : Str → Str → Str → Str) (pOk : Bool) (mem : List Turn)
    (q : Str) (hits : List SearchMatch)
    (hfilter : hits.filter (keepMatch q) = []) :
    ∃ out, chat gen pOk mem q hits = Except.ok out ∧
      out.sources = [] ∧ out.genCalled = !hits.isEmpty ∧
      (hits.isEmpty = true → out.answer = notFoundMsg) ∧
      (hits.isEmpty = false → out.answer = gen [] (renderMem mem) q) := by
  by_cases hemp : hits.isEmpty = true
  · refine ⟨⟨notFoundMsg, [], false, mem ++ [(q, notFoundMsg)]⟩, ?_, rfl, ?_, ?_, ?_⟩
    · unfold chat
      rw [if_pos hemp]
    · rw [hemp]
      rfl
    · intro
      rfl
    · intro hc
      rw [hemp] at hc
      cases hc
  · have hemp2 : hits.isEmpty = false := Bool.not_eq_true _ ▸ Bool.of_not_eq_true hemp
    refine ⟨chatAnswer gen pOk mem q hits [], ?_, ?_, ?_, ?_, ?_⟩
    · unfold chat
      rw [if_neg hemp, hfilter]
      rfl
    · rw [chatAnswer_sources]
      rfl
    · rw [chatAnswer_genCalled, hemp2]
      rfl
    · intro hc
      exact absurd hc hemp
    · intro _
      rw [chatAnswer_answer, hfilter]
      rfl

/-- Witness for C2 (amended): instantiation at one match with no keyword
overlap and score one half, where the filter leaves nothing. -/
theorem C2_no_citations_witness :
    ∃ out, chat (fun _ _ _ => "GEN".data) true [] "capital".data
        [⟨mkRat 1 2, ⟨some "zebra stripes".data, some "a.pdf".data, some 1⟩⟩] =
        Except.ok out ∧
      out.sources = [] ∧
      out.genCalled =
        !([⟨mkRat 1 2, ⟨some "zebra stripes".data, some "a.pdf".data, some 1⟩⟩]
          : List SearchMatch).isEmpty ∧
      (([⟨mkRat 1 2, ⟨some "zebra stripes".data, some "a.pdf".data, some 1⟩⟩]
          : List SearchMatch).isEmpty = true → out.answer = notFoundMsg) ∧
      (([⟨mkRat 1 2, ⟨some "zebra stripes".data, some "a.pdf".data, some 1⟩⟩]
          : List SearchMatch).isEmpty = false →
        out.answer = (fun _ _ _ => "GEN".data) ([] : Str) (renderMem []) "capital".data) :=
  C2_no_citations (fun _ _ _ => "GEN".data) true [] "capital".data
    [⟨mkRat 1 2, ⟨some "zebra stripes".data, some "a.pdf".data, some 1⟩⟩] rfl

theorem mem_insertDesc {q : Str} {s x : Source} {l : List Source} :
    x ∈ insertDesc q s l ↔ x = s ∨ x ∈ l := by
  induction l with
  | nil => simp [insertDesc]
  | cons t ts ih =>
    unfold insertDesc
    split
    · simp [List.mem_cons]
    · simp only [List.mem_cons, ih]
      tauto

theorem perm_insertDesc (q : Str) (s : Source) (l : List Source) :
    List.Perm (insertDesc q s l) (s :: l) := by
  induction l with
  | nil => exact List.Perm.refl _
  | cons t ts ih =>
    unfold insertDesc
    split
    · exact List.Perm.refl _
    · exact (ih.cons t).trans (List.Perm.swap s t ts)

theorem perm_sortSources (q : Str) (l : List Source) : List.Perm (sortSources q l) l := by
  induction l with
  | nil => exact List.Perm.refl _
  | cons s ss ih => exact (perm_insertDesc q s (sortSources q ss)).trans (ih.cons s)

theorem pairwise_insertDesc {q : Str} {s : Source} {l : List Source}
    (h : l.Pairwise (descBy q)) : (insertDesc q s l).Pairwise (descBy q) := by
  induction l with
  | nil => simp [insertDesc, descBy]
  | cons t ts ih =>
    rcases List.pairwise_cons.mp h with ⟨ht, hts⟩
    unfold insertDesc
    split
    · rename_i hc
      refine List.pairwise_cons.mpr ⟨?_, h⟩
      intro b hb
      rcases List.mem_cons.mp hb with rfl | hb2
      · exact hc
      · exact le_trans (ht b hb2) hc
    · rename_i hc
      refine List.pairwise_cons.mpr ⟨?_, ih hts⟩
      intro b hb
      rcases mem_insertDesc.mp hb with rfl | hb2
      · exact Nat.le_of_lt (Nat.lt_of_not_le hc)
      · exact ht b hb2

theorem pairwise_sortSources (q : Str) (l : List Source) :
    (sortSources q l).Pairwise (descBy q) := by
  induction l with
  | nil => simp [sortSources]
  | cons s ss ih => exact pairwise_insertDesc ih

theorem filter_insertDesc (q : Str) (c : Nat) (s : Source) (l : List Source) :
    (insertDesc q s l).filter (fun x => srcKw q x == c) =
      (if srcKw q s == c then [s] else []) ++ l.filter (fun x => srcKw q x == c) := by
  induction l with
  | nil =>
    by_cases hc : srcKw q s = c
    · simp [insertDesc, List.filter, hc]
    · have hb : (srcKw q s == c) = false := by simp [hc]
      simp [insertDesc, List.filter, hb]
  | cons t ts ih =>
    unfold insertDesc
    split
    · rename_i hle
      by_cases hc : srcKw q s = c <;> simp [List.filter_cons, hc, beq_iff_eq]
    · rename_i hgt
      by_cases hc : srcKw q s = c
      · have htc : ¬ srcKw q t = c := by
          have := Nat.lt_of_not_le hgt
          omega
        simp [List.filter_cons, htc, hc, ih, beq_iff_eq]
      · simp only [List.filter_cons, ih]
        by_cases htc : srcKw q t = c <;> simp [htc, hc, beq_iff_eq]

theorem filter_sortSources (q : Str) (c : Nat) (l : List Source) :
    (sortSources q l).filter (fun x => srcKw q x == c) =
      l.filter (fun x => srcKw q x == c) := by
  induction l with
  | nil => rfl
  | cons s ss ih =>
    unfold sortSources
    rw [filter_insertDesc]
    by_cases hc : srcKw q s = c <;> simp [List.filter_cons, hc, ih, beq_iff_eq]

/-- C7: the chat route's ordering step sorts the surviving sources by keyword
match count descending, it is a permutation of its input, and it is stable:
for every key value, the sources with that exact keyword match count appear
in the output in their incoming order (the order the similarity search
returned them in). Determinism is immediate since `sortSources` is a pure
function of the query and the source list. -/
theorem C7_sort_stable_desc (q : Str) (l : List Source) :
    (sortSources q l).Pairwise (descBy q) ∧
    (∀ c : Nat, (sortSources q l).filter (fun x => srcKw q x == c) =
      l.filter (fun x => srcKw q x == c)) ∧
    List.Perm (sortSources q l) l :=
  ⟨pairwise_sortSources q l, fun c => filter_sortSources q c l, perm_sortSources q l⟩

theorem buildSources_ok_length {ms : List SearchMatch} {srcs : List Source}
    (h : buildSources ms = Except.ok srcs) : srcs.length = ms.length := by
  induction ms generalizing srcs with
  | nil =>
    unfold buildSources at h
    cases h
    rfl
  | cons m rest ih =>
    unfold buildSources at h
    rcases hm : mkSource m with e | s <;> rw [hm] at h
    · cases h
    · rcases hr : buildSources rest with e | tl <;> rw [hr] at h
      · cases h
      · cases h
        simp [ih hr]

theorem buildSources_error_of_mem {ms : List SearchMatch} {m : SearchMatch}
    (hm : m ∈ ms) (he : ∃ e, mkSource m = Except.error e) :
    ∃ d, buildSources ms = Except.error d := by
  induction ms with
  | nil => cases hm
  | cons x xs ih =>
    unfold buildSources
    rcases hx : mkSource x with e0 | s0
    · exact ⟨e0, rfl⟩
    · rcases List.mem_cons.mp hm with rfl | hm2
      · rcases he with ⟨e, he⟩
        rw [hx] at he
        cases he
      · rcases ih hm2 with ⟨d, hd⟩
        rw [hd]
        exact ⟨d, rfl⟩

theorem take_one_eq_nil_iff {α : Type} {l : List α} : l.take 1 = [] ↔ l = [] := by
  cases l <;> simp

/-- C8: whenever the chat route answers successfully, the response carries at
most one citation; it carries none exactly when no match survives the
inclusion gate; and any returned citation has the greatest keyword match
count among all sources built from the surviving matches — it is the
top-ranked one. -/
theorem C8_citation_cap (gen : Str → Str → Str → Str) (pOk : Bool) (mem : List Turn)
    (q : Str) (hits : List SearchMatch) (out : ChatOutput) (srcs : List Source)
    (hok : chat gen pOk mem q hits = Except.ok out)
    (hbuild : buildSources (hits.filter (keepMatch q)) = Except.ok srcs) :
    out.sources.length ≤ 1 ∧
    (out.sources = [] ↔ hits.filter (keepMatch q) = []) ∧
    ∀ s ∈ out.sources, ∀ x ∈ srcs, srcKw q x ≤ srcKw q s := by
  unfold chat at hok
  by_cases hemp : hits.isEmpty = true
  · rw [if_pos hemp] at hok
    have hnil : hits = [] := List.isEmpty_iff.mp hemp
    cases hok
    subst hnil
    simp
  · rw [if_neg hemp, hbuild] at hok
    have hout : out = chatAnswer gen pOk mem q hits srcs := by
      cases hok
      rfl
    have hsrc : out.sources = (sortSources q srcs).take 1 := by
      rw [hout, chatAnswer_sources]
    refine ⟨?_, ?_, ?_⟩
    · rw [hsrc]
      exact (List.length_take 1 _).le.trans (Nat.min_le_left 1 _)
    · rw [hsrc, take_one_eq_nil_iff]
      constructor
      · intro hsort
        have hlen : srcs.length = 0 := by
          have := (perm_sortSources q srcs).length_eq
          rw [hsort] at this
          simpa using this.symm
        have : srcs = [] := List.length_eq_zero.mp hlen
        subst this
        have := buildSources_ok_length hbuild
        exact (List.length_eq_zero.mp this.symm)
      · intro hkept
        rw [hkept] at hbuild
        have : srcs = [] := by
          unfold buildSources at hbuild
          cases hbuild
          rfl
        subst this
        rfl
    · intro s hs x hx
      rw [hsrc] at hs
      rcases hsort : sortSources q srcs with _ | ⟨a, rest⟩
      · rw [hsort] at hs
        cases hs
      · rw [hsort] at hs
        simp at hs
        subst hs
        have hxs : x ∈ sortSources q srcs :=
          (perm_sortSources q srcs).mem_iff.mpr hx
        rw [hsort] at hxs
        rcases List.mem_cons.mp hxs with rfl | hx2
        · exact Nat.le_refl _
        · have hp := pairwise_sortSources q srcs
          rw [hsort] at hp
          exact (List.pairwise_cons.mp hp).1 x hx2

/-- Witness for C8: instantiation at one surviving match, where the response
carries exactly that source. -/
theorem C8_citation_cap_witness :
    (ChatOutput.mk "GEN".data [⟨"a.pdf".data, 1, "hello world".data⟩] true
        []).sources.length ≤ 1 ∧
    ((ChatOutput.mk "GEN".data [⟨"a.pdf".data, 1, "hello world".data⟩] true
        []).sources = [] ↔
      ([⟨mkRat 1 2, ⟨some "hello world".data, some "a.pdf".data, some 1⟩⟩]
        : List SearchMatch).filter (keepMatch "hello".data) = []) ∧
    ∀ s ∈ (ChatOutput.mk "GEN".data [⟨"a.pdf".data, 1, "hello world".data⟩] true
        []).sources,
      ∀ x ∈ [(⟨"a.pdf".data, 1, "hello world".data⟩ : Source)],
        srcKw "hello".data x ≤ srcKw "hello".data s :=
  C8_citation_cap (fun _ _ _ => "GEN".data) true [] "hello".data
    [⟨mkRat 1 2, ⟨some "hello world".data, some "a.pdf".data, some 1⟩⟩]
    (ChatOutput.mk "GEN".data [⟨"a.pdf".data, 1, "hello world".data⟩] true [])
    [⟨"a.pdf".data, 1, "hello world".data⟩] rfl rfl

/-- C10: when some retrieved match passes the inclusion gate but its
`page_number` metadata does not validate as an integer (missing, null or
non-integer), building the `Source` pydantic model raises, so the whole chat
request fails with a server error instead of answering with a null page
number. -/
theorem C10_missing_page_errors (gen : Str → Str → Str → Str) (pOk : Bool)
    (mem : List Turn) (q : Str) (hits : List SearchMatch) (m : SearchMatch)
    (hmem : m ∈ hits) (hkeep : keepMatch q m = true)
    (hpage : m.metadata.page_number = none) :
    ∃ d, chat gen pOk mem q hits = Except.error d := by
  have hkept : m ∈ hits.filter (keepMatch q) := List.mem_filter.mpr ⟨hmem, hkeep⟩
  have hsrcErr : ∃ e, mkSource m = Except.error e := by
    unfold mkSource
    rw [hpage]
    cases m.metadata.text <;> exact ⟨_, rfl⟩
  rcases buildSources_error_of_mem hkept hsrcErr with ⟨d, hd⟩
  have hne : hits.isEmpty = false := by
    cases hits
    · cases hmem
    · rfl
  unfold chat
  rw [hne, hd]
  exact ⟨d, rfl⟩

/-- Witness for C10: a single match with high similarity, a text field, and
no integer page number makes the request fail. -/
theorem C10_missing_page_errors_witness :
    ∃ d, chat (fun _ _ _ => "GEN".data) true [] "page".data
        [⟨mkRat 9 10, ⟨some "the page text".data, some "b.pdf".data, none⟩⟩] =
      Except.error d :=
  C10_missing_page_errors (fun _ _ _ => "GEN".data) true [] "page".data
    [⟨mkRat 9 10, ⟨some "the page text".data, some "b.pdf".data, none⟩⟩]
    ⟨mkRat 9 10, ⟨some "the page text".data, some "b.pdf".data, none⟩⟩
    (List.Mem.head _) rfl rfl

/-- C9 (amended): `pdfName` is resolved through the fallback chain —
`pdf_name`, then `original_filename`, then the basename of `source` (the
basename is taken and the prefix stripped only when `source` contains a
slash), then the basename of `file_path`, else `"Unknown Document"` — where
an empty value or the sentinel `"Unknown"` falls through to the next entry,
and the stripped prefix is any 32-character token before the first underscore
(its length alone is checked; the code never verifies it is hex). -/
theorem C9_pdf_name_amended (m : DocMeta) : extract_pdf_name m = pdfNameSpec m := by
  simp only [extract_pdf_name, pdfNameSpec, usableVal, sourceName, filePathName]
  split_ifs <;> simp_all [Option.orElse]

end RagPdf
